import Mathlib

/-!
Verification development for the voice-command orchestration engine of the
ai-voice-todo-chatbot repository.

The embedded code:
- frontend/src/hooks/useVoiceRecognition.ts — the recording state machine
  (React hook): its state variables, the four capability event handlers
  (onstart, onresult, onerror, onend), the three exposed actions
  (startRecording, stopRecording, resetTranscript), and the
  language-update effect.
- frontend/src/app/chat/page.tsx — the auto-dispatch scheduler
  (handleVoiceTranscript with its 300 ms setTimeout) and sendMessage.
- frontend/src/utils/languageDetection.ts — this module is imported by the
  hook but its file is not in the tree; it is reconstructed from the
  implementation sketch in specs/002-voice-commands/quickstart.md
  (containsUrdu, detectLanguage, getLanguageCode, getVoiceErrorMessage)
  and the ERROR_MESSAGES table in specs/002-voice-commands/plan.md.

React state updates are modelled as pure record updates; the hook's render
state is a record, each event handler and action is a function on it, and a
session run is a fold over an event list.  Host-side facts that the code
relies on are made explicit: the SpeechRecognition instance carries a
`running` flag, and `start()` on an already-running instance throws
(InvalidStateError), which the hook catches.  Invocations of the
`onTranscriptReady` callback are collected in an output list instead of
calling an opaque function.
-/

namespace VoiceTodo

/-- The two display languages, 'en' | 'ur' in the TypeScript sources
(the spec's primary/secondary scripts). -/
inductive Lang where
  | en
  | ur
deriving DecidableEq, Repr

/-- One character of the secondary (Urdu/Arabic) script: the regex
/[؀-ۿ]/ from containsUrdu (quickstart.md line 62 and
chat/page.tsx line 151).  The regex tests UTF-16 code units, but every
codepoint in U+0600..U+06FF is a single unit in that range and surrogate
units lie in U+D800..U+DFFF, so codepoint-level membership is equivalent. -/
def urduChar (c : Char) : Bool :=
  0x0600 ≤ c.toNat && c.toNat ≤ 0x06FF

/-- containsUrdu from quickstart.md lines 61-63: `/[؀-ۿ]/.test(text)`. -/
def containsUrdu (text : String) : Bool :=
  text.data.any urduChar

/-- detectLanguage from quickstart.md lines 65-67:
`containsUrdu(text) ? 'ur' : 'en'`. -/
def detectLanguage (text : String) : Lang :=
  if containsUrdu text then Lang.ur else Lang.en

/-- getLanguageCode from quickstart.md lines 69-71:
`lang === 'en' ? 'en-US' : 'ur-PK'`. -/
def getLanguageCode : Lang → String
  | Lang.en => "en-US"
  | Lang.ur => "ur-PK"

/-- ERROR_MESSAGES['not-allowed'] from plan.md. -/
def notAllowedMessage : Lang → String
  | Lang.en => "Microphone access denied. Please allow microphone permissions."
  | Lang.ur => "مائیکروفون کی اجازت نہیں ہے۔ براہ کرم اجازت دیں۔"

/-- ERROR_MESSAGES['no-speech'] from plan.md. -/
def noSpeechMessage : Lang → String
  | Lang.en => "No speech detected. Please try again."
  | Lang.ur => "آواز نہیں سنی گئی۔ دوبارہ کوشش کریں۔"

/-- ERROR_MESSAGES['audio-capture'] from plan.md. -/
def audioCaptureMessage : Lang → String
  | Lang.en => "Microphone not found. Please check your device."
  | Lang.ur => "مائیکروفون نہیں ملا۔ اپنا آلہ چیک کریں۔"

/-- ERROR_MESSAGES['network'] from plan.md; also the fallback used by
getVoiceErrorMessage for every code outside the table. -/
def networkMessage : Lang → String
  | Lang.en => "Network error. Please check your connection."
  | Lang.ur => "نیٹ ورک خرابی۔ اپنا کنکشن چیک کریں۔"

/-- Modelled from the spec: the body of frontend/src/utils/languageDetection.ts
is not in the tree; this is `ERROR_MESSAGES[code]?.[lang]` with the table of
specs/002-voice-commands/plan.md (four entries: not-allowed, no-speech,
audio-capture, network; 'aborted' and 'not-supported' have no entry). -/
def voiceErrorMessageTable (code : String) (l : Lang) : Option String :=
  if code = "not-allowed" then some (notAllowedMessage l)
  else if code = "no-speech" then some (noSpeechMessage l)
  else if code = "audio-capture" then some (audioCaptureMessage l)
  else if code = "network" then some (networkMessage l)
  else none

/-- Modelled from the spec: getVoiceErrorMessage from quickstart.md lines
74-77, `return messages[code]?.[lang] || messages['network'][lang];`.
The JavaScript `||` also replaces an empty string by the fallback, which the
inner `if` mirrors. -/
def getVoiceErrorMessage (code : String) (l : Lang) : String :=
  match voiceErrorMessageTable code l with
  | some m => if m = "" then networkMessage l else m
  | none => networkMessage l

/-- The closed error-code enumeration: SpeechRecognitionErrorCode from
frontend/src/types/speech.ts. -/
def errorCodes : List String :=
  ["not-allowed", "no-speech", "audio-capture", "network", "aborted", "not-supported"]

/-- The SpeechRecognition instance as configured by the hook
(useVoiceRecognition.ts lines 55-61), plus the host-side `running` flag:
a Web Speech session is running from a successful start() until the host
delivers onend or onerror, and start() on a running instance throws
InvalidStateError (caught by the hook at lines 150-153). -/
structure SpeechRecognitionInstance where
  continuous : Bool
  interimResults : Bool
  maxAlternatives : Nat
  lang : String
  running : Bool
deriving DecidableEq, Repr

/-- VoiceRecognitionConfig from frontend/src/types/speech.ts: language,
optional autoDetect (the onTranscriptReady callback is modelled by the
output list of the step function). -/
structure VoiceRecognitionConfig where
  language : Lang
  autoDetect : Option Bool
deriving DecidableEq, Repr

/-- The hook's render state (useVoiceRecognition.ts lines 26-39): the five
useState variables, the isSupported probe result, and recognitionRef. -/
structure HookState where
  isRecording : Bool
  isTranscribing : Bool
  transcript : String
  error : Option String
  detectedLanguage : Option Lang
  isSupported : Bool
  recognitionRef : Option SpeechRecognitionInstance
deriving DecidableEq, Repr

/-- One entry of event.results: with maxAlternatives = 1 the handler reads
result.isFinal and result[0].transcript (useVoiceRecognition.ts lines 74-81). -/
structure SpeechResult where
  isFinal : Bool
  transcript : String
deriving DecidableEq, Repr

/-- One recorded invocation of config.onTranscriptReady: the final
transcript and the detected language passed at line 96. -/
abbrev TranscriptCallback := String × Option Lang

/-- The accumulation loop of recognition.onresult (lines 74-81):
first component finalTranscript, second interimTranscript. -/
def collectTranscripts (results : List SpeechResult) : String × String :=
  results.foldl
    (fun acc r =>
      if r.isFinal then (acc.1 ++ r.transcript, acc.2) else (acc.1, acc.2 ++ r.transcript))
    ("", "")

/-- finalTranscript after the loop. -/
def finalText (results : List SpeechResult) : String :=
  (collectTranscripts results).1

/-- interimTranscript after the loop. -/
def interimText (results : List SpeechResult) : String :=
  (collectTranscripts results).2

/-- The instance built by the init effect (lines 55-61): continuous false,
interimResults true, maxAlternatives 1, lang from the config; not running. -/
def mkRecognition (cfg : VoiceRecognitionConfig) : SpeechRecognitionInstance :=
  { continuous := false
    interimResults := true
    maxAlternatives := 1
    lang := getLanguageCode cfg.language
    running := false }

/-- Hook state after mount: useState defaults (lines 30-34) and the init
effect (lines 51-129), which constructs the instance only when the host is
supported. -/
def initHookState (cfg : VoiceRecognitionConfig) (supported : Bool) : HookState :=
  { isRecording := false
    isTranscribing := false
    transcript := ""
    error := none
    detectedLanguage := none
    isSupported := supported
    recognitionRef := if supported then some (mkRecognition cfg) else none }

/-- startRecording (lines 139-155).  When unsupported: set the localized
not-supported error and return.  Otherwise, if an instance exists, assign
its lang and call start(); start() on a running instance throws, and the
catch block sets the localized not-allowed error (the lang assignment at
line 148 has already taken effect). -/
def startRecording (cfg : VoiceRecognitionConfig) (s : HookState) : HookState :=
  if s.isSupported = false then
    { s with error := some (getVoiceErrorMessage "not-supported" cfg.language) }
  else
    match s.recognitionRef with
    | none => s
    | some r =>
      let r2 := { r with lang := getLanguageCode cfg.language }
      if r2.running then
        { s with recognitionRef := some r2
                 error := some (getVoiceErrorMessage "not-allowed" cfg.language) }
      else
        { s with recognitionRef := some { r2 with running := true } }

/-- recognition.onresult (lines 70-101): accumulate final and interim text,
display final if non-empty else interim; on a non-empty final transcript
clear isTranscribing, detect the language when config.autoDetect !== false,
and invoke onTranscriptReady; otherwise keep transcribing. -/
def onresultHandler (cfg : VoiceRecognitionConfig) (s : HookState)
    (results : List SpeechResult) : HookState × List TranscriptCallback :=
  let finalTranscript := finalText results
  let interimTranscript := interimText results
  let currentTranscript :=
    if finalTranscript = "" then interimTranscript else finalTranscript
  if finalTranscript = "" then
    ({ s with transcript := currentTranscript, isTranscribing := true }, [])
  else
    let detectedLang :=
      if cfg.autoDetect ≠ some false then some (detectLanguage finalTranscript) else none
    ({ s with transcript := currentTranscript
              isTranscribing := false
              detectedLanguage := detectedLang },
      [(finalTranscript, detectedLang)])

/-- The actions and capability events a hook instance can receive. -/
inductive HookEvent where
  | startRecording
  | stopRecording
  | resetTranscript
  | onstart
  | onresult (results : List SpeechResult)
  | onerror (code : String)
  | onend
deriving DecidableEq, Repr

/-- One step of the hook.  stopRecording (lines 158-162) only calls
recognition.stop() — a request to the host whose effect arrives later as a
separate onend event — so it changes no hook state.  resetTranscript
(lines 165-168) clears transcript and error.  onstart (lines 64-68) sets
both flags and clears the error.  onerror (lines 103-111) drops both flags
and stores the localized message; onend (lines 113-116) drops both flags;
in both cases the host session is over, so the instance stops running. -/
def stepHook (cfg : VoiceRecognitionConfig) (s : HookState) :
    HookEvent → HookState × List TranscriptCallback
  | HookEvent.startRecording => (startRecording cfg s, [])
  | HookEvent.stopRecording => (s, [])
  | HookEvent.resetTranscript => ({ s with transcript := "", error := none }, [])
  | HookEvent.onstart =>
      ({ s with isRecording := true, isTranscribing := true, error := none }, [])
  | HookEvent.onresult results => onresultHandler cfg s results
  | HookEvent.onerror code =>
      ({ s with isRecording := false
                isTranscribing := false
                error := some (getVoiceErrorMessage code cfg.language)
                recognitionRef :=
                  s.recognitionRef.map (fun r => { r with running := false }) }, [])
  | HookEvent.onend =>
      ({ s with isRecording := false
                isTranscribing := false
                recognitionRef :=
                  s.recognitionRef.map (fun r => { r with running := false }) }, [])

/-- Run a list of events, collecting every onTranscriptReady invocation. -/
def runHook (cfg : VoiceRecognitionConfig) :
    HookState → List HookEvent → HookState × List TranscriptCallback
  | s, [] => (s, [])
  | s, e :: rest =>
    let step := stepHook cfg s e
    let tail := runHook cfg step.1 rest
    (tail.1, step.2 ++ tail.2)

/-- The language-update effect (lines 132-136): whenever config.language
changes, if an instance exists and the host is supported, reassign the
instance's lang to the new preference. -/
def languageUpdateEffect (newLang : Lang) (s : HookState) : HookState :=
  match s.recognitionRef with
  | some r =>
    if s.isSupported then
      { s with recognitionRef := some { r with lang := getLanguageCode newLang } }
    else s
  | none => s

/-- The capability layer's delivery discipline: result events are delivered
only while a session is active, i.e. between onstart and the session's
onend/onerror.  The Boolean argument carries whether a session is active. -/
def resultsWithinSession : Bool → List HookEvent → Bool
  | _, [] => true
  | _, HookEvent.onstart :: rest => resultsWithinSession true rest
  | _, HookEvent.onend :: rest => resultsWithinSession false rest
  | _, HookEvent.onerror _ :: rest => resultsWithinSession false rest
  | active, HookEvent.onresult _ :: rest => active && resultsWithinSession active rest
  | active, HookEvent.startRecording :: rest => resultsWithinSession active rest
  | active, HookEvent.stopRecording :: rest => resultsWithinSession active rest
  | active, HookEvent.resetTranscript :: rest => resultsWithinSession active rest

/-- Whether an event is a result event carrying a non-empty final
transcript (the spec's "final result"; at most one occurs per session). -/
def isFinalResultEvent : HookEvent → Bool
  | HookEvent.onresult results => if finalText results = "" then false else true
  | _ => false

/-- Number of final-result events in a trace. -/
def countFinalResultEvents (evs : List HookEvent) : Nat :=
  evs.countP isFinalResultEvent

/-- One setTimeout created by handleVoiceTranscript (chat/page.tsx lines
119-134): the transcript captured in the closure, whether clearTimeout was
called on it, and whether it has already run.  A JavaScript timeout runs at
most once and does not run after clearTimeout. -/
structure PageTimer where
  transcript : String
  cancelled : Bool
  fired : Bool
deriving DecidableEq, Repr

/-- The chat page state relevant to voice dispatch (chat/page.tsx): the
inputMessage text box, every timeout ever created (identified by creation
index), timeoutRef holding the id of the most recently created timeout, the
log of messages handed to the chat endpoint by sendMessage, and whether an
authenticated user is present (sendMessage's user?.id guard).  The
rendered message list and the isLoading flag are display-only and carry no
dispatch behaviour, so they are not part of the state. -/
structure ChatPageState where
  inputMessage : String
  timers : List PageTimer
  timeoutRef : Option Nat
  sentMessages : List String
  hasUser : Bool
deriving DecidableEq, Repr

/-- clearTimeout on timer id i: cancel it if it exists (cancelling a timer
that already ran is a no-op in effect, since fired timers never run again). -/
def cancelTimeout (l : List PageTimer) (i : Nat) : List PageTimer :=
  match l[i]? with
  | some tm => l.set i { tm with cancelled := true }
  | none => l

/-- sendMessage (chat/page.tsx lines 65-115): return unless inputMessage
trims non-empty and a user is present; otherwise clear the input and POST
the trimmed message (recorded in sentMessages). -/
def sendMessage (s : ChatPageState) : ChatPageState :=
  if s.inputMessage.trim = "" ∨ s.hasUser = false then s
  else
    { s with inputMessage := ""
             sentMessages := s.sentMessages ++ [s.inputMessage.trim] }

/-- handleVoiceTranscript (chat/page.tsx lines 119-134): set the input to
the transcript, clearTimeout on any existing timeoutRef, create a new
300 ms timeout whose callback sends when the captured transcript trims
non-empty, and store its id in timeoutRef. -/
def handleVoiceTranscript (t : String) (s : ChatPageState) : ChatPageState :=
  let cleared :=
    match s.timeoutRef with
    | some i => cancelTimeout s.timers i
    | none => s.timers
  { s with inputMessage := t
           timers := cleared ++ [{ transcript := t, cancelled := false, fired := false }]
           timeoutRef := some cleared.length }

/-- The timeout with id i elapses: if it was neither cancelled nor already
run, mark it fired and run its callback
`if (transcript.trim()) sendMessage();` (lines 129-133). -/
def fireTimeout (i : Nat) (s : ChatPageState) : ChatPageState :=
  match s.timers[i]? with
  | none => s
  | some tm =>
    if tm.cancelled || tm.fired then s
    else
      let s1 := { s with timers := s.timers.set i { tm with fired := true } }
      if tm.transcript.trim = "" then s1 else sendMessage s1

/-- Events the dispatch scheduler reacts to: an onTranscriptReady delivery
(which runs handleVoiceTranscript) and a timeout elapsing. -/
inductive PageEvent where
  | voice (t : String)
  | fire (i : Nat)
deriving DecidableEq, Repr

/-- One step of the page model. -/
def stepPage (s : ChatPageState) : PageEvent → ChatPageState
  | PageEvent.voice t => handleVoiceTranscript t s
  | PageEvent.fire i => fireTimeout i s

/-- Run a list of page events. -/
def runPage : ChatPageState → List PageEvent → ChatPageState
  | s, [] => s
  | s, e :: rest => runPage (stepPage s e) rest

/-- The page state on mount: empty input, no timers, no sends, user
authenticated (the chat page redirects away otherwise). -/
def initChatPage : ChatPageState :=
  { inputMessage := ""
    timers := []
    timeoutRef := none
    sentMessages := []
    hasUser := true }

/-- An armed timer: created, not cancelled, not yet run. -/
def timerArmed (tm : PageTimer) : Bool :=
  !tm.cancelled && !tm.fired

/-- How many timers are armed right now. -/
def armedCount (s : ChatPageState) : Nat :=
  s.timers.countP timerArmed

/-- Number of onTranscriptReady deliveries in a page trace. -/
def countVoiceEvents (evs : List PageEvent) : Nat :=
  evs.countP (fun e => match e with | PageEvent.voice _ => true | PageEvent.fire _ => false)

/-- A configuration used by the concrete runs below: English display
language, auto-detection on. -/
def cfgEn : VoiceRecognitionConfig :=
  { language := Lang.en, autoDetect := some true }

/-- Every armed timer is the one whose id timeoutRef holds: the positional
invariant behind "at most one outstanding timer". -/
def timersRefInv (s : ChatPageState) : Prop :=
  ∀ (i : Nat) (h : i < s.timers.length),
    timerArmed s.timers[i] = true → s.timeoutRef = some i

/-- How many timeouts have run. -/
def firedCount (s : ChatPageState) : Nat :=
  s.timers.countP (fun tm => tm.fired)

/-- A concrete timer used by claim witnesses below. -/
def timerA : PageTimer :=
  { transcript := "a", cancelled := false, fired := false }

/-- A concrete page state with one armed timer, used by claim witnesses. -/
def pageOneTimer : ChatPageState :=
  { inputMessage := "", timers := [timerA],
    timeoutRef := some 0, sentMessages := [], hasUser := true }

/-- The recognition instance of an active English session (concrete). -/
def rActive : SpeechRecognitionInstance :=
  { continuous := false, interimResults := true, maxAlternatives := 1,
    lang := "en-US", running := true }

/-- The hook state of an active session: startRecording was called and the
host delivered onstart. -/
def sActive : HookState :=
  (runHook cfgEn (initHookState cfgEn true)
    [HookEvent.startRecording, HookEvent.onstart]).1



theorem countP_le_one_of_unique {α : Type} (p : α → Bool) :
    ∀ (l : List α) (ro : Option Nat),
      (∀ (i : Nat) (h : i < l.length), p l[i] = true → ro = some i) →
      l.countP p ≤ 1 := by
  intro l
  induction l with
  | nil => intro ro _; simp
  | cons x xs ih =>
    intro ro h
    by_cases hx : p x = true
    · have h0 : ro = some 0 := h 0 (by simp) hx
      have hxs : xs.countP p = 0 := by
        rw [List.countP_eq_zero]
        intro a ha hpa
        obtain ⟨j, hj, hja⟩ := List.getElem_of_mem ha
        have hj2 : ro = some (j + 1) := by
          apply h (j + 1) (by simpa using Nat.succ_lt_succ hj)
          simpa [hja] using hpa
        rw [h0] at hj2
        simp at hj2
      simp [List.countP_cons, hx, hxs]
    · rw [List.countP_cons]
      have hx0 : (if p x then 1 else 0) = 0 := by simp [hx]
      rw [hx0, Nat.add_zero]
      by_cases hex : ∃ (j : Nat) (hj : j < xs.length), p xs[j] = true
      · obtain ⟨j0, hj0, hp0⟩ := hex
        have hro : ro = some (j0 + 1) := by
          apply h (j0 + 1) (by simpa using Nat.succ_lt_succ hj0)
          simpa using hp0
        apply ih (some j0)
        intro i hi hpi
        have hri : ro = some (i + 1) := by
          apply h (i + 1) (by simpa using Nat.succ_lt_succ hi)
          simpa using hpi
        rw [hro] at hri
        injection hri with hri2
        exact congrArg some (by omega)
      · push_neg at hex
        have hz : xs.countP p = 0 := by
          rw [List.countP_eq_zero]
          intro a ha hpa
          obtain ⟨j, hj, hja⟩ := List.getElem_of_mem ha
          exact hex j hj (by simpa [hja] using hpa)
        omega

theorem countP_set_congr {α : Type} (p : α → Bool) :
    ∀ (l : List α) (i : Nat) (x y : α), l[i]? = some y → p x = p y →
      (l.set i x).countP p = l.countP p := by
  intro l
  induction l with
  | nil => intro i x y h _; simp at h
  | cons a as ih =>
    intro i x y h hpq
    cases i with
    | zero =>
      simp only [List.getElem?_cons_zero, Option.some.injEq] at h
      subst h
      simp [List.set_cons_zero, List.countP_cons, hpq]
    | succ n =>
      simp only [List.getElem?_cons_succ] at h
      simp [List.set_cons_succ, List.countP_cons, ih n x y h hpq]

theorem countP_set_mark {α : Type} (p : α → Bool) :
    ∀ (l : List α) (i : Nat) (x y : α), l[i]? = some y → p y = false → p x = true →
      (l.set i x).countP p = l.countP p + 1 := by
  intro l
  induction l with
  | nil => intro i x y h _ _; simp at h
  | cons a as ih =>
    intro i x y h hy hx
    cases i with
    | zero =>
      simp only [List.getElem?_cons_zero, Option.some.injEq] at h
      subst h
      simp [List.set_cons_zero, List.countP_cons, hy, hx]
    | succ n =>
      simp only [List.getElem?_cons_succ] at h
      simp [List.set_cons_succ, List.countP_cons, ih n x y h hy hx]
      omega


theorem sendMessage_timers (s : ChatPageState) : (sendMessage s).timers = s.timers := by
  unfold sendMessage; split <;> rfl

theorem sendMessage_timeoutRef (s : ChatPageState) : (sendMessage s).timeoutRef = s.timeoutRef := by
  unfold sendMessage; split <;> rfl

theorem cancelTimeout_length (l : List PageTimer) (i : Nat) :
    (cancelTimeout l i).length = l.length := by
  unfold cancelTimeout; split <;> simp

theorem timersRefInv_voice (t : String) (s : ChatPageState) (h : timersRefInv s) :
    timersRefInv (handleVoiceTranscript t s) := by
  intro i hi harm
  unfold handleVoiceTranscript at hi harm ⊢
  simp only at hi harm ⊢
  cases href : s.timeoutRef with
  | none =>
    simp only [href] at hi harm ⊢
    simp only [List.length_append, List.length_cons, List.length_nil] at hi
    by_cases hlt : i < s.timers.length
    · exfalso
      rw [List.getElem_append_left hlt] at harm
      have := h i hlt harm
      rw [href] at this
      exact Option.noConfusion this
    · have hieq : i = s.timers.length := by omega
      exact congrArg some hieq.symm
  | some r =>
    simp only [href] at hi harm ⊢
    have hclen : (cancelTimeout s.timers r).length = s.timers.length :=
      cancelTimeout_length s.timers r
    simp only [List.length_append, List.length_cons, List.length_nil, hclen] at hi
    by_cases hlt : i < s.timers.length
    · rw [List.getElem_append_left (by omega)] at harm
      unfold cancelTimeout at harm
      cases htr : s.timers[r]? with
      | none =>
        simp only [htr] at harm
        have := h i hlt harm
        rw [href] at this
        injection this with hri
        subst hri
        rw [List.getElem?_eq_getElem hlt] at htr
        exact Option.noConfusion htr
      | some tr =>
        simp only [htr] at harm
        by_cases hir : i = r
        · subst hir
          rw [List.getElem_set] at harm
          simp [timerArmed] at harm
        · rw [List.getElem_set] at harm
          rw [if_neg (fun hh => hir hh.symm)] at harm
          have := h i hlt harm
          rw [href] at this
          injection this with hri
          exact absurd hri.symm hir
    · have hieq : i = s.timers.length := by omega
      rw [← hclen] at hieq
      exact congrArg some hieq.symm

theorem timersRefInv_sendMessage (s : ChatPageState) (h : timersRefInv s) :
    timersRefInv (sendMessage s) := by
  unfold sendMessage
  split
  · exact h
  · intro j hj harm
    exact h j hj harm

theorem timersRefInv_fire (i : Nat) (s : ChatPageState) (h : timersRefInv s) :
    timersRefInv (fireTimeout i s) := by
  unfold fireTimeout
  cases hti : s.timers[i]? with
  | none => exact h
  | some tm =>
    dsimp only
    by_cases hdead : (tm.cancelled || tm.fired) = true
    · rw [if_pos hdead]
      exact h
    · rw [if_neg hdead]
      have hkey : timersRefInv
          { s with timers := s.timers.set i { tm with fired := true } } := by
        intro j hj harm
        simp only [List.length_set] at hj
        simp only at harm ⊢
        rw [List.getElem_set] at harm
        by_cases hij : i = j
        · rw [if_pos hij] at harm
          simp [timerArmed] at harm
        · rw [if_neg hij] at harm
          exact h j hj harm
      by_cases htrim : tm.transcript.trim = ""
      · rw [if_pos htrim]
        exact hkey
      · rw [if_neg htrim]
        exact timersRefInv_sendMessage _ hkey

theorem timersRefInv_runPage :
    ∀ (evs : List PageEvent) (s : ChatPageState), timersRefInv s →
      timersRefInv (runPage s evs) := by
  intro evs
  induction evs with
  | nil => intro s h; exact h
  | cons e rest ih =>
    intro s h
    cases e with
    | voice t => exact ih (handleVoiceTranscript t s) (timersRefInv_voice t s h)
    | fire i => exact ih (fireTimeout i s) (timersRefInv_fire i s h)

theorem armedCount_le_one_of_inv (s : ChatPageState) (h : timersRefInv s) :
    armedCount s ≤ 1 :=
  countP_le_one_of_unique timerArmed s.timers s.timeoutRef h

theorem handleVoiceTranscript_timers_length (t : String) (s : ChatPageState) :
    (handleVoiceTranscript t s).timers.length = s.timers.length + 1 := by
  unfold handleVoiceTranscript
  cases href : s.timeoutRef <;>
    simp [cancelTimeout_length]

theorem fireTimeout_timers_length (i : Nat) (s : ChatPageState) :
    (fireTimeout i s).timers.length = s.timers.length := by
  unfold fireTimeout
  cases hti : s.timers[i]? with
  | none => rfl
  | some tm =>
    dsimp only
    by_cases hdead : (tm.cancelled || tm.fired) = true
    · rw [if_pos hdead]
    · rw [if_neg hdead]
      by_cases htrim : tm.transcript.trim = ""
      · rw [if_pos htrim]
        simp
      · rw [if_neg htrim]
        rw [sendMessage_timers]
        simp

theorem runPage_timers_length :
    ∀ (evs : List PageEvent) (s : ChatPageState),
      (runPage s evs).timers.length = s.timers.length + countVoiceEvents evs := by
  intro evs
  induction evs with
  | nil => intro s; simp [runPage, countVoiceEvents]
  | cons e rest ih =>
    intro s
    cases e with
    | voice t =>
      show (runPage (handleVoiceTranscript t s) rest).timers.length = _
      rw [ih, handleVoiceTranscript_timers_length]
      simp [countVoiceEvents, List.countP_cons]
      omega
    | fire i =>
      show (runPage (fireTimeout i s) rest).timers.length = _
      rw [ih, fireTimeout_timers_length]
      simp [countVoiceEvents, List.countP_cons]

theorem handleVoiceTranscript_firedCount (t : String) (s : ChatPageState) :
    firedCount (handleVoiceTranscript t s) = firedCount s := by
  unfold handleVoiceTranscript firedCount
  cases href : s.timeoutRef with
  | none => simp [List.countP_append, List.countP_cons]
  | some r =>
    dsimp only
    unfold cancelTimeout
    cases htr : s.timers[r]? with
    | none => simp [List.countP_append, List.countP_cons]
    | some tr =>
      dsimp only
      rw [List.countP_append]
      rw [countP_set_congr (fun tm : PageTimer => tm.fired) s.timers r { tr with cancelled := true } tr htr rfl]
      simp [List.countP_cons]

theorem handleVoiceTranscript_sent (t : String) (s : ChatPageState) :
    (handleVoiceTranscript t s).sentMessages = s.sentMessages := by
  unfold handleVoiceTranscript
  cases href : s.timeoutRef <;> rfl

theorem sendMessage_sent_length (s : ChatPageState) :
    (sendMessage s).sentMessages.length ≤ s.sentMessages.length + 1 := by
  unfold sendMessage
  split
  · omega
  · simp

theorem fireTimeout_sent_fired (i : Nat) (s : ChatPageState)
    (h : s.sentMessages.length ≤ firedCount s) :
    (fireTimeout i s).sentMessages.length ≤ firedCount (fireTimeout i s) := by
  unfold fireTimeout
  cases hti : s.timers[i]? with
  | none => exact h
  | some tm =>
    dsimp only
    by_cases hdead : (tm.cancelled || tm.fired) = true
    · rw [if_pos hdead]
      exact h
    · rw [if_neg hdead]
      have hnf : tm.fired = false := by
        cases hc : tm.fired
        · rfl
        · exfalso; apply hdead; simp [hc]
      have hfc : firedCount
          { s with timers := s.timers.set i { tm with fired := true } }
          = firedCount s + 1 := by
        unfold firedCount
        exact countP_set_mark (fun tm : PageTimer => tm.fired) s.timers i { tm with fired := true } tm hti hnf rfl
      by_cases htrim : tm.transcript.trim = ""
      · rw [if_pos htrim]
        rw [hfc]
        show s.sentMessages.length ≤ firedCount s + 1
        omega
      · rw [if_neg htrim]
        have hs : (sendMessage { s with timers := s.timers.set i { tm with fired := true } }).sentMessages.length
            ≤ s.sentMessages.length + 1 :=
          sendMessage_sent_length _
        have hfc2 : firedCount (sendMessage { s with timers := s.timers.set i { tm with fired := true } })
            = firedCount s + 1 := by
          unfold firedCount
          rw [sendMessage_timers]
          exact countP_set_mark (fun tm : PageTimer => tm.fired) s.timers i { tm with fired := true } tm hti hnf rfl
        rw [hfc2]
        omega

theorem runPage_sent_fired :
    ∀ (evs : List PageEvent) (s : ChatPageState),
      s.sentMessages.length ≤ firedCount s →
      (runPage s evs).sentMessages.length ≤ firedCount (runPage s evs) := by
  intro evs
  induction evs with
  | nil => intro s h; exact h
  | cons e rest ih =>
    intro s h
    cases e with
    | voice t =>
      have h2 : (handleVoiceTranscript t s).sentMessages.length
          ≤ firedCount (handleVoiceTranscript t s) := by
        rw [handleVoiceTranscript_sent, handleVoiceTranscript_firedCount]
        exact h
      exact ih _ h2
    | fire i =>
      exact ih _ (fireTimeout_sent_fired i s h)

theorem firedCount_le_timers_length (s : ChatPageState) :
    firedCount s ≤ s.timers.length :=
  List.countP_le_length _

theorem startRecording_isRecording (cfg : VoiceRecognitionConfig) (s : HookState) :
    (startRecording cfg s).isRecording = s.isRecording := by
  unfold startRecording
  split
  · rfl
  · split
    · rfl
    · dsimp only
      split <;> rfl

theorem startRecording_isTranscribing (cfg : VoiceRecognitionConfig) (s : HookState) :
    (startRecording cfg s).isTranscribing = s.isTranscribing := by
  unfold startRecording
  split
  · rfl
  · split
    · rfl
    · dsimp only
      split <;> rfl

theorem onresultHandler_isRecording (cfg : VoiceRecognitionConfig) (s : HookState)
    (results : List SpeechResult) :
    (onresultHandler cfg s results).1.isRecording = s.isRecording := by
  unfold onresultHandler
  dsimp only
  split <;> rfl

theorem hookFlags_inv (cfg : VoiceRecognitionConfig) :
    ∀ (evs : List HookEvent) (s : HookState) (a : Bool),
      resultsWithinSession a evs = true →
      s.isRecording = a →
      (s.isTranscribing = true → s.isRecording = true) →
      ((runHook cfg s evs).1.isTranscribing = true →
        (runHook cfg s evs).1.isRecording = true) := by
  intro evs
  induction evs with
  | nil =>
    intro s a hok hrec hinv
    exact hinv
  | cons e rest ih =>
    intro s a hok hrec hinv
    cases e with
    | startRecording =>
      refine ih (startRecording cfg s) a ?_ ?_ ?_
      · simpa [resultsWithinSession] using hok
      · rw [startRecording_isRecording]; exact hrec
      · rw [startRecording_isRecording, startRecording_isTranscribing]; exact hinv
    | stopRecording =>
      refine ih s a ?_ hrec hinv
      simpa [resultsWithinSession] using hok
    | resetTranscript =>
      refine ih { s with transcript := "", error := none } a ?_ hrec hinv
      simpa [resultsWithinSession] using hok
    | onstart =>
      refine ih { s with isRecording := true, isTranscribing := true, error := none } true ?_ rfl ?_
      · simpa [resultsWithinSession] using hok
      · intro _; rfl
    | onresult results =>
      have hok2 : a = true ∧ resultsWithinSession a rest = true := by
        simpa [resultsWithinSession, Bool.and_eq_true] using hok
      refine ih (onresultHandler cfg s results).1 a ?_ ?_ ?_
      · exact hok2.2
      · rw [onresultHandler_isRecording]; exact hrec
      · intro _
        rw [onresultHandler_isRecording, hrec, hok2.1]
    | onerror code =>
      refine ih _ false ?_ rfl ?_
      · simpa [resultsWithinSession] using hok
      · intro hh
        exact absurd hh (by simp [stepHook])
    | onend =>
      refine ih _ false ?_ rfl ?_
      · simpa [resultsWithinSession] using hok
      · intro hh
        exact absurd hh (by simp [stepHook])

theorem startRecording_unsupported (cfg : VoiceRecognitionConfig) (s : HookState)
    (h : s.isSupported = false) :
    startRecording cfg s
      = { s with error := some (getVoiceErrorMessage "not-supported" cfg.language) } := by
  unfold startRecording
  rw [if_pos h]

theorem unsupported_inv (cfg : VoiceRecognitionConfig) :
    ∀ (evs : List HookEvent) (s : HookState),
      s.isSupported = false → s.recognitionRef = none →
      (runHook cfg s evs).1.isSupported = false
        ∧ (runHook cfg s evs).1.recognitionRef = none := by
  intro evs
  induction evs with
  | nil => intro s h1 h2; exact ⟨h1, h2⟩
  | cons e rest ih =>
    intro s h1 h2
    cases e with
    | startRecording =>
      refine ih (startRecording cfg s) ?_ ?_ <;>
        rw [startRecording_unsupported cfg s h1]
      · exact h1
      · exact h2
    | stopRecording => exact ih s h1 h2
    | resetTranscript => exact ih _ h1 h2
    | onstart => exact ih _ h1 h2
    | onresult results =>
      have hrec : (onresultHandler cfg s results).1.isSupported = false ∧
          (onresultHandler cfg s results).1.recognitionRef = none := by
        unfold onresultHandler
        dsimp only
        split
        · exact ⟨h1, h2⟩
        · exact ⟨h1, h2⟩
      exact ih _ hrec.1 hrec.2
    | onerror code =>
      refine ih _ h1 ?_
      simp [stepHook, h2]
    | onend =>
      refine ih _ h1 ?_
      simp [stepHook, h2]

theorem stepHook_callbacks_length (cfg : VoiceRecognitionConfig) (s : HookState)
    (e : HookEvent) :
    (stepHook cfg s e).2.length = (if isFinalResultEvent e then 1 else 0) := by
  cases e with
  | onresult results =>
    show (onresultHandler cfg s results).2.length = _
    unfold onresultHandler isFinalResultEvent
    dsimp only
    by_cases hf : finalText results = ""
    · rw [if_pos hf]
      simp [hf]
    · rw [if_neg hf]
      simp [hf]
  | startRecording => rfl
  | stopRecording => rfl
  | resetTranscript => rfl
  | onstart => rfl
  | onerror code => rfl
  | onend => rfl

theorem runHook_callbacks_count (cfg : VoiceRecognitionConfig) :
    ∀ (evs : List HookEvent) (s : HookState),
      (runHook cfg s evs).2.length = countFinalResultEvents evs := by
  intro evs
  induction evs with
  | nil => intro s; rfl
  | cons e rest ih =>
    intro s
    show ((stepHook cfg s e).2 ++ (runHook cfg (stepHook cfg s e).1 rest).2).length = _
    rw [List.length_append, stepHook_callbacks_length, ih]
    unfold countFinalResultEvents
    rw [List.countP_cons]
    omega

/-- Claim C1 is refuted by the code: from the fresh engine, the trace
startRecording, onstart reaches a state with isRecording and isTranscribing
both true — the onstart handler (useVoiceRecognition.ts lines 64-68) sets
both flags. -/
theorem claim1_counterexample :
    (runHook cfgEn (initHookState cfgEn true)
        [HookEvent.startRecording, HookEvent.onstart]).1.isRecording = true
    ∧ (runHook cfgEn (initHookState cfgEn true)
        [HookEvent.startRecording, HookEvent.onstart]).1.isTranscribing = true := by
  constructor <;> decide

/-- Claim C1, amended: mutual exclusion does not hold — onstart sets both
flags, so isRecording and isTranscribing are simultaneously true while
recording before a final result.  What holds is the one-sided invariant:
across every action/event sequence in which result events are delivered
only during an active session, isTranscribing = true implies
isRecording = true. -/
theorem claim1_amended (cfg : VoiceRecognitionConfig) (supported : Bool)
    (evs : List HookEvent) (hok : resultsWithinSession false evs = true) :
    (runHook cfg (initHookState cfg supported) evs).1.isTranscribing = true →
    (runHook cfg (initHookState cfg supported) evs).1.isRecording = true := by
  apply hookFlags_inv cfg evs (initHookState cfg supported) false hok rfl
  intro hh
  simp [initHookState] at hh

/-- Witness for claim1_amended: the invariant evaluated on a concrete
trace ending in an interim result. -/
theorem claim1_amended_witness :
    resultsWithinSession false
        [HookEvent.startRecording, HookEvent.onstart,
         HookEvent.onresult [{ isFinal := false, transcript := "show" }]] = true
    ∧ ((runHook cfgEn (initHookState cfgEn true)
          [HookEvent.startRecording, HookEvent.onstart,
           HookEvent.onresult [{ isFinal := false, transcript := "show" }]]).1.isTranscribing = true →
        (runHook cfgEn (initHookState cfgEn true)
          [HookEvent.startRecording, HookEvent.onstart,
           HookEvent.onresult [{ isFinal := false, transcript := "show" }]]).1.isRecording = true) :=
  ⟨by decide, claim1_amended cfgEn true _ (by decide)⟩

/-- Claim C2 is refuted by the code: a session emits a final result and
stopRecording() is called immediately afterwards — before any dispatch
delay could elapse — yet onTranscriptReady has been invoked (once): the
hook calls it synchronously inside onresult (line 96), and stopRecording
(lines 158-162) cancels nothing. -/
theorem claim2_counterexample :
    (runHook cfgEn (initHookState cfgEn true)
        [HookEvent.startRecording, HookEvent.onstart,
         HookEvent.onresult [{ isFinal := true, transcript := "show my tasks" }],
         HookEvent.stopRecording]).2
      = [("show my tasks", some Lang.en)] := by
  decide

/-- Claim C2, amended: if stopRecording() is called after a final result
but before the dispatch delay elapses, onTranscriptReady has already been
invoked for that session — a result event with a non-empty final
transcript emits exactly one invocation, synchronously, and stopRecording
leaves the hook state and the callback log unchanged (it neither cancels a
pending dispatch nor emits anything). -/
theorem claim2_amended :
    (∀ (cfg : VoiceRecognitionConfig) (s : HookState) (results : List SpeechResult),
        finalText results ≠ "" →
        (stepHook cfg s (HookEvent.onresult results)).2
          = [(finalText results,
              if cfg.autoDetect ≠ some false
              then some (detectLanguage (finalText results)) else none)])
    ∧ (∀ (cfg : VoiceRecognitionConfig) (s : HookState),
        stepHook cfg s HookEvent.stopRecording = (s, [])) := by
  constructor
  · intro cfg s results hf
    show (onresultHandler cfg s results).2 = _
    unfold onresultHandler
    dsimp only
    rw [if_neg hf]
  · intro cfg s
    rfl

/-- Witness for claim2_amended: a concrete final result emits exactly one
callback. -/
theorem claim2_amended_witness :
    finalText [({ isFinal := true, transcript := "show my tasks" } : SpeechResult)] ≠ ""
    ∧ (stepHook cfgEn (initHookState cfgEn true)
        (HookEvent.onresult [{ isFinal := true, transcript := "show my tasks" }])).2
      = [(finalText [({ isFinal := true, transcript := "show my tasks" } : SpeechResult)],
          if cfgEn.autoDetect ≠ some false
          then some (detectLanguage
            (finalText [({ isFinal := true, transcript := "show my tasks" } : SpeechResult)]))
          else none)] :=
  ⟨by decide, claim2_amended.1 cfgEn (initHookState cfgEn true) _ (by decide)⟩

/-- Claim C3: for every string s, the classifier returns 'ur' (secondary
script) iff s contains at least one codepoint in U+0600..U+06FF, and
returns 'en' (primary) iff it contains none; in particular the empty
string classifies as 'en'. -/
theorem claim3_classifier :
    (∀ s : String,
        (detectLanguage s = Lang.ur ↔ ∃ c ∈ s.data, 0x0600 ≤ c.toNat ∧ c.toNat ≤ 0x06FF)
        ∧ (detectLanguage s = Lang.en ↔ ¬∃ c ∈ s.data, 0x0600 ≤ c.toNat ∧ c.toNat ≤ 0x06FF))
    ∧ detectLanguage "" = Lang.en := by
  constructor
  · intro s
    by_cases h : containsUrdu s
    · have hex : ∃ c ∈ s.data, 0x0600 ≤ c.toNat ∧ c.toNat ≤ 0x06FF := by
        simp only [containsUrdu, List.any_eq_true, urduChar, Bool.and_eq_true,
          decide_eq_true_eq] at h
        simpa using h
      constructor
      · simp only [detectLanguage, h, if_true]
        exact ⟨fun _ => hex, fun _ => by trivial⟩
      · simp only [detectLanguage, h, if_true]
        constructor
        · intro hh; cases hh
        · intro hh; exact absurd hex hh
    · have hnex : ¬∃ c ∈ s.data, 0x0600 ≤ c.toNat ∧ c.toNat ≤ 0x06FF := by
        simp only [containsUrdu, List.any_eq_true, urduChar, Bool.and_eq_true,
          decide_eq_true_eq] at h
        push_neg at h
        intro hh
        obtain ⟨c, hc, h1, h2⟩ := hh
        exact absurd h2 (Nat.not_le_of_lt (h c hc h1))
      constructor
      · simp only [detectLanguage, h, if_false]
        constructor
        · intro hh; cases hh
        · intro hh; exact absurd hh hnex
      · simp only [detectLanguage, h, if_false]
        exact ⟨fun _ => hnex, fun _ => by trivial⟩
  · rfl

/-- Claim C4: at every reachable page state at most one dispatch timer is
armed; rearming first cancels the previously armed timer (its entry is
cancelled after handleVoiceTranscript); and across one session — at most
one final-result event, the capability layer's ordering guarantee —
onTranscriptReady is invoked at most once and the downstream dispatch
fires at most once. -/
theorem claim4_at_most_one_dispatch :
    (∀ evs : List PageEvent, armedCount (runPage initChatPage evs) ≤ 1)
    ∧ (∀ (s : ChatPageState) (t : String) (i : Nat) (tm : PageTimer),
        s.timeoutRef = some i → s.timers[i]? = some tm →
        (handleVoiceTranscript t s).timers[i]? = some { tm with cancelled := true })
    ∧ (∀ (cfg : VoiceRecognitionConfig) (evs : List HookEvent),
        countFinalResultEvents evs ≤ 1 →
        (runHook cfg (initHookState cfg true) evs).2.length ≤ 1)
    ∧ (∀ evs : List PageEvent, countVoiceEvents evs ≤ 1 →
        (runPage initChatPage evs).sentMessages.length ≤ 1) := by
  refine ⟨?_, ?_, ?_, ?_⟩
  · intro evs
    apply armedCount_le_one_of_inv
    apply timersRefInv_runPage
    intro i hi harm
    simp [initChatPage] at hi
  · intro s t i tm href hti
    have hlen : i < s.timers.length := (List.getElem?_eq_some.mp hti).1
    unfold handleVoiceTranscript
    simp only [href]
    unfold cancelTimeout
    simp only [hti]
    rw [List.getElem?_append_left (by simpa using hlen)]
    exact List.getElem?_set_self (by simpa using hlen)
  · intro cfg evs h
    rw [runHook_callbacks_count]
    exact h
  · intro evs h
    have h1 := runPage_sent_fired evs initChatPage (by simp [initChatPage, firedCount])
    have h2 := firedCount_le_timers_length (runPage initChatPage evs)
    have h3 := runPage_timers_length evs initChatPage
    have h0 : initChatPage.timers.length = 0 := rfl
    omega

/-- Witness for claim4_at_most_one_dispatch: all four parts evaluated at
concrete traces and a concrete armed-timer state. -/
theorem claim4_witness :
    armedCount (runPage initChatPage
        [PageEvent.voice "show my tasks", PageEvent.fire 0]) ≤ 1
    ∧ pageOneTimer.timeoutRef = some 0
    ∧ (handleVoiceTranscript "b" pageOneTimer).timers[0]?
        = some { timerA with cancelled := true }
    ∧ countFinalResultEvents
        [HookEvent.startRecording, HookEvent.onstart,
         HookEvent.onresult [{ isFinal := true, transcript := "hi" }]] ≤ 1
    ∧ (runHook cfgEn (initHookState cfgEn true)
        [HookEvent.startRecording, HookEvent.onstart,
         HookEvent.onresult [{ isFinal := true, transcript := "hi" }]]).2.length ≤ 1
    ∧ (runPage initChatPage
        [PageEvent.voice "show my tasks", PageEvent.fire 0]).sentMessages.length ≤ 1 :=
  ⟨claim4_at_most_one_dispatch.1 _,
   by decide,
   claim4_at_most_one_dispatch.2.1 pageOneTimer "b" 0 timerA (by decide) (by decide),
   by decide,
   claim4_at_most_one_dispatch.2.2.1 cfgEn _ (by decide),
   claim4_at_most_one_dispatch.2.2.2 _ (by decide)⟩

/-- Claim C5: when the host capability is absent, no SpeechRecognition
instance is ever constructed (recognitionRef is none in every reachable
state), and calling startRecording() only sets the error state to the
localized not-supported message and returns, leaving everything else
unchanged and opening no handle. -/
theorem claim5_unsupported_start (cfg : VoiceRecognitionConfig) (evs : List HookEvent) :
    (runHook cfg (initHookState cfg false) evs).1.recognitionRef = none
    ∧ stepHook cfg (runHook cfg (initHookState cfg false) evs).1 HookEvent.startRecording
      = ({ (runHook cfg (initHookState cfg false) evs).1 with
            error := some (getVoiceErrorMessage "not-supported" cfg.language) }, []) := by
  have h := unsupported_inv cfg evs (initHookState cfg false) rfl (by simp [initHookState])
  refine ⟨h.2, ?_⟩
  show (startRecording cfg _, []) = _
  rw [startRecording_unsupported cfg _ h.1]

/-- Claim C6 is refuted by the code: onstart clears the error but not the
transcript.  After a completed session whose final transcript was "hello",
a fresh startRecording followed by onstart leaves the transcript at
"hello", not "". -/
theorem claim6_counterexample :
    (runHook cfgEn (initHookState cfgEn true)
        [HookEvent.startRecording, HookEvent.onstart,
         HookEvent.onresult [{ isFinal := true, transcript := "hello" }],
         HookEvent.onend, HookEvent.startRecording, HookEvent.onstart]).1.transcript = "hello"
    ∧ (runHook cfgEn (initHookState cfgEn true)
        [HookEvent.startRecording, HookEvent.onstart,
         HookEvent.onresult [{ isFinal := true, transcript := "hello" }],
         HookEvent.onend, HookEvent.startRecording, HookEvent.onstart]).1.transcript ≠ "" := by
  constructor <;> decide

/-- Claim C6, amended: on the session-started event the hook sets both
flags and clears the stored error, regardless of prior values; the stored
transcript (and every other field) is left unchanged — prior transcript is
only cleared by resetTranscript or overwritten by result events. -/
theorem claim6_amended (cfg : VoiceRecognitionConfig) (s : HookState) :
    stepHook cfg s HookEvent.onstart
      = ({ s with isRecording := true, isTranscribing := true, error := none }, []) :=
  rfl

/-- Claim C7 is refuted by the code: calling startRecording() while a
session is active is not a no-op on the observable state — start() on the
running instance throws, and the catch block (lines 150-153) sets error to
the localized not-allowed message, so error changes from none to some. -/
theorem claim7_counterexample :
    (runHook cfgEn (initHookState cfgEn true)
        [HookEvent.startRecording, HookEvent.onstart]).1.error = none
    ∧ (runHook cfgEn (initHookState cfgEn true)
        [HookEvent.startRecording, HookEvent.onstart,
         HookEvent.startRecording]).1.error
      = some (getVoiceErrorMessage "not-allowed" Lang.en) := by
  constructor <;> decide

/-- Claim C7, amended: startRecording() during an active session opens no
second handle (the one instance is kept) and leaves isRecording,
isTranscribing, transcript and detectedLanguage unchanged, but it
reassigns the open handle's lang to the current preference (line 148,
before start() throws) and sets error to the localized not-allowed
message. -/
theorem claim7_amended (cfg : VoiceRecognitionConfig) (s : HookState)
    (r : SpeechRecognitionInstance) (hsup : s.isSupported = true)
    (href : s.recognitionRef = some r) (hrun : r.running = true) :
    startRecording cfg s
      = { s with recognitionRef := some { r with lang := getLanguageCode cfg.language }
                 error := some (getVoiceErrorMessage "not-allowed" cfg.language) } := by
  unfold startRecording
  rw [if_neg (by simp [hsup]), href]
  dsimp only
  rw [if_pos hrun]

/-- Witness for claim7_amended at the concrete active-session state. -/
theorem claim7_amended_witness :
    sActive.isSupported = true
    ∧ sActive.recognitionRef = some rActive
    ∧ rActive.running = true
    ∧ startRecording cfgEn sActive
      = { sActive with
            recognitionRef := some { rActive with lang := getLanguageCode cfgEn.language }
            error := some (getVoiceErrorMessage "not-allowed" cfgEn.language) } :=
  ⟨by decide, by decide, by decide,
   claim7_amended cfgEn sActive rActive (by decide) (by decide) (by decide)⟩

/-- Claim C8 is refuted by the code: with a session active (isRecording
true, open handle tagged "en-US"), running the language-update effect for
a switch to Urdu immediately rewrites the open handle's lang to "ur-PK"
(lines 132-136 guard only on the instance existing, not on the session
being inactive). -/
theorem claim8_counterexample :
    sActive.isRecording = true
    ∧ sActive.recognitionRef.map (fun r => r.lang) = some "en-US"
    ∧ (languageUpdateEffect Lang.ur sActive).recognitionRef.map (fun r => r.lang)
        = some "ur-PK" := by
  refine ⟨by decide, by decide, by decide⟩

/-- Claim C8, amended: changing config.language runs the update effect,
which immediately reassigns the lang tag of the already-open handle
whenever the host is supported and an instance exists — active session or
not; the new preference is not deferred to the next session's start. -/
theorem claim8_amended (newLang : Lang) (s : HookState) (r : SpeechRecognitionInstance)
    (hsup : s.isSupported = true) (href : s.recognitionRef = some r) :
    languageUpdateEffect newLang s
      = { s with recognitionRef := some { r with lang := getLanguageCode newLang } } := by
  unfold languageUpdateEffect
  rw [href]
  dsimp only
  rw [if_pos hsup]

/-- Witness for claim8_amended at the concrete active-session state. -/
theorem claim8_amended_witness :
    sActive.isSupported = true
    ∧ sActive.recognitionRef = some rActive
    ∧ languageUpdateEffect Lang.ur sActive
      = { sActive with recognitionRef := some { rActive with lang := getLanguageCode Lang.ur } } :=
  ⟨by decide, by decide, claim8_amended Lang.ur sActive rActive (by decide) (by decide)⟩

/-- Claim C9: for every code in the closed six-code set and each display
language l, getVoiceErrorMessage returns a non-empty message in language l
(the repository's own classifier maps the message back to l); for every
code outside the set it returns the fixed localized fallback — the network
message, per the quickstart's `|| messages['network'][lang]` — and never
fails. -/
theorem claim9_error_localizer :
    (∀ c ∈ errorCodes, ∀ l : Lang,
        getVoiceErrorMessage c l ≠ "" ∧ detectLanguage (getVoiceErrorMessage c l) = l)
    ∧ (∀ (c : String) (l : Lang), c ∉ errorCodes →
        getVoiceErrorMessage c l = networkMessage l)
    ∧ (∀ l : Lang, networkMessage l ≠ "" ∧ detectLanguage (networkMessage l) = l) := by
  refine ⟨?_, ?_, ?_⟩
  · intro c hc l
    simp only [errorCodes, List.mem_cons, List.not_mem_nil, or_false] at hc
    rcases hc with rfl | rfl | rfl | rfl | rfl | rfl <;> cases l <;>
      exact ⟨by decide, by decide⟩
  · intro c l hc
    simp only [errorCodes, List.mem_cons, List.not_mem_nil, or_false] at hc
    push_neg at hc
    obtain ⟨h1, h2, h3, h4, h5, h6⟩ := hc
    unfold getVoiceErrorMessage voiceErrorMessageTable
    rw [if_neg h1, if_neg h2, if_neg h3, if_neg h4]
  · intro l
    cases l <;> exact ⟨by decide, by decide⟩

/-- Witness for claim9_error_localizer at a supported code and at an
unknown code. -/
theorem claim9_witness :
    "not-allowed" ∈ errorCodes
    ∧ (getVoiceErrorMessage "not-allowed" Lang.ur ≠ ""
        ∧ detectLanguage (getVoiceErrorMessage "not-allowed" Lang.ur) = Lang.ur)
    ∧ "bogus-code" ∉ errorCodes
    ∧ getVoiceErrorMessage "bogus-code" Lang.en = networkMessage Lang.en :=
  ⟨by decide,
   claim9_error_localizer.1 "not-allowed" (by decide) Lang.ur,
   by decide,
   claim9_error_localizer.2.1 "bogus-code" Lang.en (by decide)⟩

/-- Claim C10: a result event whose concatenated final transcript is the
empty string invokes no callback, leaves the engine transcribing
(isTranscribing is set true) and displays the interim text; the callback
fires only when the final transcript is non-empty. -/
theorem claim10_empty_final :
    (∀ (cfg : VoiceRecognitionConfig) (s : HookState) (results : List SpeechResult),
        finalText results = "" →
        stepHook cfg s (HookEvent.onresult results)
          = ({ s with transcript := interimText results, isTranscribing := true }, []))
    ∧ (∀ (cfg : VoiceRecognitionConfig) (s : HookState) (results : List SpeechResult),
        (stepHook cfg s (HookEvent.onresult results)).2 ≠ [] → finalText results ≠ "") := by
  constructor
  · intro cfg s results hf
    show onresultHandler cfg s results = _
    unfold onresultHandler
    dsimp only
    rw [if_pos hf, if_pos hf]
  · intro cfg s results hne hf
    apply hne
    show (onresultHandler cfg s results).2 = []
    unfold onresultHandler
    dsimp only
    rw [if_pos hf]

/-- Witness for claim10_empty_final: an interim-only event and a concrete
final event. -/
theorem claim10_witness :
    finalText [({ isFinal := false, transcript := "sho" } : SpeechResult)] = ""
    ∧ stepHook cfgEn (initHookState cfgEn true)
        (HookEvent.onresult [{ isFinal := false, transcript := "sho" }])
      = ({ initHookState cfgEn true with
            transcript := interimText [({ isFinal := false, transcript := "sho" } : SpeechResult)]
            isTranscribing := true }, [])
    ∧ finalText [({ isFinal := true, transcript := "hi" } : SpeechResult)] ≠ "" :=
  ⟨by decide,
   claim10_empty_final.1 cfgEn (initHookState cfgEn true) _ (by decide),
   claim10_empty_final.2 cfgEn (initHookState cfgEn true) _ (by decide)⟩

end VoiceTodo
